import Mathlib

set_option maxHeartbeats 1000000

/-!
Shallow embedding of the `go-evmap` repository: a double-buffered
eventually-consistent map (`Map` in `map.go` / the registry-bearing
variant), its operation log (`pkg/oplog`), and reader handles
(`reader.go`).  Machine maps `map[K]*V` are modelled as association
lists over `K` with values `Option V` (a stored value may be Go's nil
pointer).  The two physical map instances are two cells indexed by
`Bool`; the engine's `readable`/`writable` pointers are the cell
indices, and a reader handle's cached pointer is likewise a cell
index, which models Go's pointer aliasing faithfully.
-/

/-- Go map `map[K]*V`: an association list; a stored value is `Option V`
because Go permits storing a nil pointer under a key. -/
abbrev GoMap (K V : Type) : Type := List (K × Option V)

/-- Go map read `m[key]`: `some v` when the key is present with stored
pointer `v`, `none` when absent. -/
def mapLookup {K V : Type} [DecidableEq K] : GoMap K V → K → Option (Option V)
  | [], _ => none
  | (k', v) :: rest, k => if k' = k then some v else mapLookup rest k

/-- Go map write `m[key] = value`: overwrite in place or append. -/
def mapInsert {K V : Type} [DecidableEq K] : GoMap K V → K → Option V → GoMap K V
  | [], k, v => [(k, v)]
  | (k', v') :: rest, k, v =>
      if k' = k then (k, v) :: rest else (k', v') :: mapInsert rest k v

/-- Go builtin `delete(m, key)`: removes the key's entry when present. -/
def mapDelete {K V : Type} [DecidableEq K] : GoMap K V → K → GoMap K V
  | [], _ => []
  | (k', v) :: rest, k =>
      if k' = k then mapDelete rest k else (k', v) :: mapDelete rest k

/-- Go's two-valued map read `v, ok := m[key]`. -/
def goMapRead {K V : Type} [DecidableEq K] (m : GoMap K V) (k : K) : Option V × Bool :=
  match mapLookup m k with
  | some v => (v, true)
  | none => (none, false)

/-- `oplog.entry`: one buffered mutation (`entryTypeInsert`,
`entryTypeDelete`, `entryTypeClear` in `pkg/oplog/entry.go`). -/
inductive entry (K V : Type) where
  | insert (k : K) (v : Option V)
  | delete (k : K)
  | clear
deriving DecidableEq

/-- `oplog.applyEntry`: applies one entry to the destination map; `clear`
deletes every key currently in the map. -/
def applyEntry {K V : Type} [DecidableEq K] : entry K V → GoMap K V → GoMap K V
  | .insert k v, m => mapInsert m k v
  | .delete k, m => mapDelete m k
  | .clear, _ => []

/-- `oplog.Log.Apply`: replays the buffered entries in insertion order. -/
def logApply {K V : Type} [DecidableEq K] : List (entry K V) → GoMap K V → GoMap K V
  | [], m => m
  | e :: rest, m => logApply rest (applyEntry e m)

theorem mapLookup_mapInsert {K V : Type} [DecidableEq K] (m : GoMap K V) (k k' : K) (v : Option V) :
    mapLookup (mapInsert m k v) k' = if k' = k then some v else mapLookup m k' := by
  induction m with
  | nil =>
      by_cases h : k' = k
      · subst h; simp [mapInsert, mapLookup]
      · simp [mapInsert, mapLookup, h, Ne.symm h]
  | cons p rest ih =>
      obtain ⟨k₀, v₀⟩ := p
      by_cases h0 : k₀ = k
      · subst h0
        by_cases h : k₀ = k'
        · subst h; simp [mapInsert, mapLookup]
        · simp [mapInsert, mapLookup, h, Ne.symm h]
      · by_cases h1 : k₀ = k'
        · subst h1
          simp [mapInsert, mapLookup, h0, Ne.symm h0]
        · simp [mapInsert, mapLookup, h0, h1, ih]

theorem mapLookup_mapDelete {K V : Type} [DecidableEq K] (m : GoMap K V) (k k' : K) :
    mapLookup (mapDelete m k) k' = if k' = k then none else mapLookup m k' := by
  induction m with
  | nil => simp [mapDelete, mapLookup]
  | cons p rest ih =>
      obtain ⟨k₀, v₀⟩ := p
      by_cases h0 : k₀ = k
      · subst h0
        by_cases h : k₀ = k'
        · subst h
          simp [mapDelete, mapLookup, ih]
        · simp [mapDelete, mapLookup, h, ih, Ne.symm h]
      · by_cases h1 : k₀ = k'
        · subst h1
          simp [mapDelete, mapLookup, h0, ih, Ne.symm h0]
        · simp [mapDelete, mapLookup, h0, h1, ih]

theorem mapDelete_absent {K V : Type} [DecidableEq K] (m : GoMap K V) (k : K)
    (h : mapLookup m k = none) : mapDelete m k = m := by
  induction m with
  | nil => rfl
  | cons p rest ih =>
      obtain ⟨k₀, v₀⟩ := p
      by_cases h0 : k₀ = k
      · simp [mapLookup, h0] at h
      · simp only [mapLookup, if_neg h0] at h
        simp [mapDelete, h0, ih h]

theorem logApply_append {K V : Type} [DecidableEq K] (l1 l2 : List (entry K V)) (m : GoMap K V) :
    logApply (l1 ++ l2) m = logApply l2 (logApply l1 m) := by
  induction l1 generalizing m with
  | nil => rfl
  | cons e rest ih => simp [logApply, ih]

theorem mapLookup_applyEntry_congr {K V : Type} [DecidableEq K] (e : entry K V)
    (m1 m2 : GoMap K V) (h : ∀ k, mapLookup m1 k = mapLookup m2 k) :
    ∀ k, mapLookup (applyEntry e m1) k = mapLookup (applyEntry e m2) k := by
  intro k
  cases e with
  | insert k0 v0 => simp [applyEntry, mapLookup_mapInsert, h]
  | delete k0 => simp [applyEntry, mapLookup_mapDelete, h]
  | clear => simp [applyEntry]

theorem mapLookup_logApply_congr {K V : Type} [DecidableEq K] (l : List (entry K V))
    (m1 m2 : GoMap K V) (h : ∀ k, mapLookup m1 k = mapLookup m2 k) :
    ∀ k, mapLookup (logApply l m1) k = mapLookup (logApply l m2) k := by
  induction l generalizing m1 m2 with
  | nil => exact h
  | cons e rest ih => exact ih _ _ (mapLookup_applyEntry_congr e m1 m2 h)

/-- State of one `Reader` handle (`reader.go`): its `closed` flag and its
cached `readable` pointer, modelled as the index of the physical map cell
it dereferences. -/
structure ReaderState where
  closed : Bool
  ptr : Bool
deriving DecidableEq

/-- Heap of reader structs: reader id (a pointer identity) to its state;
first match wins, mirroring pointer lookup. -/
def lookupRS : List (Nat × ReaderState) → Nat → Option ReaderState
  | [], _ => none
  | (i, rs) :: rest, rid => if i = rid then some rs else lookupRS rest rid

/-- `Reader.swapReadable` applied through the heap: updates the cached
readable pointer of the reader with the given identity. -/
def setReaderPtr : List (Nat × ReaderState) → Nat → Bool → List (Nat × ReaderState)
  | [], _, _ => []
  | (i, rs) :: rest, rid, b =>
      if i = rid then (i, { rs with ptr := b }) :: rest
      else (i, rs) :: setReaderPtr rest rid b

/-- The propagation loop in `Refresh` (`part_000` lines 92-94): walks the
registry and swaps each listed reader's readable pointer to `b`. -/
def propagateList : List Nat → Bool → List (Nat × ReaderState) → List (Nat × ReaderState)
  | [], _, heap => heap
  | rid :: rest, b, heap => propagateList rest b (setReaderPtr heap rid b)

/-- The search loop in `Reader.Close`: index of the first registry slot
holding this reader (pointer equality), if any. -/
def findIndex : List Nat → Nat → Option Nat
  | [], _ => none
  | a :: t, rid => if a = rid then some 0 else (findIndex t rid).map (fun n => n + 1)

/-- Go slice element write `s[i] = b` (out-of-range writes cannot occur at
the call site and are modelled as no-ops). -/
def setAt : List Nat → Nat → Nat → List Nat
  | [], _, _ => []
  | _ :: t, 0, b => b :: t
  | a :: t, n + 1, b => a :: setAt t n b

/-- Go slice read `s[len(s)-1]` with a default for the impossible empty
case. -/
def lastGet : List Nat → Nat → Nat
  | [], d => d
  | a :: t, _ => lastGet t a

/-- The engine (`Map` in `map.go` unified with the registry-bearing
variant in `src/unnamed/part_000`, as the spec's design notes direct):
two physical map cells indexed by `Bool`, the `readable`/`writable`
pointers as cell indices, the reader registry (a list of reader
identities), the heap of reader structs, the oplog, and the
automatic-refresh counter and threshold. -/
structure MapState (K V : Type) where
  cell0 : GoMap K V
  cell1 : GoMap K V
  readableId : Bool
  writableId : Bool
  readers : List Nat
  readerOf : List (Nat × ReaderState)
  nextReaderId : Nat
  oplog : List (entry K V)
  replicationWriteLag : Nat
  maxReplicationWriteLag : Nat

/-- Contents of a physical map cell. -/
def MapState.cell {K V : Type} (s : MapState K V) (i : Bool) : GoMap K V :=
  if i then s.cell1 else s.cell0

/-- In-place mutation of a physical map cell through a pointer. -/
def MapState.setCell {K V : Type} (s : MapState K V) (i : Bool) (m : GoMap K V) : MapState K V :=
  if i then { s with cell1 := m } else { s with cell0 := m }

/-- The map the engine's `readable` pointer dereferences. -/
def MapState.readable {K V : Type} (s : MapState K V) : GoMap K V :=
  s.cell s.readableId

/-- The map the engine's `writable` pointer dereferences. -/
def MapState.writable {K V : Type} (s : MapState K V) : GoMap K V :=
  s.cell s.writableId

/-- `NewMap`: two fresh empty maps, empty registry, empty oplog, counter
zero, configured threshold. -/
def initState (K V : Type) (maxLag : Nat) : MapState K V :=
  { cell0 := [], cell1 := [], readableId := false, writableId := true,
    readers := [], readerOf := [], nextReaderId := 0, oplog := [],
    replicationWriteLag := 0, maxReplicationWriteLag := maxLag }

/-- `Map.swapLocked` / `Map.swap`: exchanges the readable and writable
pointers; no map data is copied. -/
def MapState.swapLocked {K V : Type} (s : MapState K V) : MapState K V :=
  { s with readableId := s.writableId, writableId := s.readableId }

/-- `Map.syncLocked` / `Map.sync`: applies the oplog to the map currently
pointed to by `writable`, then clears the oplog. -/
def MapState.syncLocked {K V : Type} [DecidableEq K] (s : MapState K V) : MapState K V :=
  { s.setCell s.writableId (logApply s.oplog (s.cell s.writableId)) with oplog := [] }

/-- `Map.Refresh` (unified): swap the pointers, propagate the new readable
pointer to every registered reader, replay the oplog onto the new
writable map, clear the oplog, reset the write counter. -/
def MapState.refresh {K V : Type} [DecidableEq K] (s : MapState K V) : MapState K V :=
  { ({ s.swapLocked with
        readerOf := propagateList s.swapLocked.readers s.swapLocked.readableId
          s.swapLocked.readerOf }).syncLocked with
    replicationWriteLag := 0 }

/-- `oplog.Log.PushAndApply` as seen from the engine: appends the entry to
the oplog and applies it to the map pointed to by `writable`. -/
def MapState.pushAndApply {K V : Type} [DecidableEq K] (s : MapState K V) (e : entry K V) :
    MapState K V :=
  { s with oplog := s.oplog ++ [e] }.setCell s.writableId
    (applyEntry e (s.cell s.writableId))

/-- The counter increment in `Map.observeWrite`. -/
def MapState.bump {K V : Type} (s : MapState K V) : MapState K V :=
  { s with replicationWriteLag := s.replicationWriteLag + 1 }

/-- `Map.observeWrite`: increments the write counter and refreshes when a
threshold is configured and the counter exceeds it. -/
def MapState.observeWrite {K V : Type} [DecidableEq K] (s : MapState K V) : MapState K V :=
  if 0 < s.bump.maxReplicationWriteLag ∧
      s.bump.maxReplicationWriteLag < s.bump.replicationWriteLag then
    s.bump.refresh
  else s.bump

/-- `Map.Insert`: push-and-apply the insert entry, then observe the write. -/
def MapState.insert {K V : Type} [DecidableEq K] (s : MapState K V) (k : K) (v : Option V) :
    MapState K V :=
  (s.pushAndApply (.insert k v)).observeWrite

/-- `Map.Delete`: read the key's presence in the writable map, then
push-and-apply the delete entry and observe the write; returns the new
state and the presence flag. -/
def MapState.delete {K V : Type} [DecidableEq K] (s : MapState K V) (k : K) :
    MapState K V × Bool :=
  ((s.pushAndApply (.delete k)).observeWrite, (mapLookup (s.cell s.writableId) k).isSome)

/-- `Map.Clear`: push-and-apply the clear entry, then observe the write. -/
def MapState.clear {K V : Type} [DecidableEq K] (s : MapState K V) : MapState K V :=
  (s.pushAndApply .clear).observeWrite

/-- `Map.Reader` / `NewReader`: allocates a reader struct whose cached
pointer is the engine's current readable pointer and appends it to the
registry. -/
def MapState.newReader {K V : Type} (s : MapState K V) : MapState K V × Nat :=
  ({ s with
      readers := s.readers ++ [s.nextReaderId],
      readerOf := s.readerOf ++ [(s.nextReaderId, { closed := false, ptr := s.readableId })],
      nextReaderId := s.nextReaderId + 1 }, s.nextReaderId)

/-- `Reader.Close`: scans the registry for this reader, overwrites its
slot with the last element, and drops the result of `remove` (the
shortened slice is never written back, exactly as in `reader.go`); the
`closed` flag is not touched. -/
def MapState.closeReader {K V : Type} (s : MapState K V) (rid : Nat) : MapState K V :=
  match findIndex s.readers rid with
  | none => s
  | some idx => { s with readers := setAt s.readers idx (lastGet s.readers 0) }

/-- Result of `Reader.Get`: either the Go panic or the two-valued lookup. -/
inductive ReadResult (V : Type) where
  | panicked
  | ok (value : Option V) (found : Bool)
deriving DecidableEq

/-- Result of `Reader.Has`. -/
inductive HasResult where
  | panicked
  | ok (found : Bool)
deriving DecidableEq

/-- `Reader.Get`: panics when the closed flag is set, otherwise performs
the two-valued lookup on the map its cached pointer dereferences. -/
def MapState.readerGet {K V : Type} [DecidableEq K] (s : MapState K V) (rid : Nat) (k : K) :
    ReadResult V :=
  match lookupRS s.readerOf rid with
  | none => .panicked
  | some rs =>
      if rs.closed then .panicked
      else .ok (goMapRead (s.cell rs.ptr) k).1 (goMapRead (s.cell rs.ptr) k).2

/-- `Reader.Has`: panics when the closed flag is set, otherwise reports
the key's presence in the map its cached pointer dereferences. -/
def MapState.readerHas {K V : Type} [DecidableEq K] (s : MapState K V) (rid : Nat) (k : K) :
    HasResult :=
  match lookupRS s.readerOf rid with
  | none => .panicked
  | some rs =>
      if rs.closed then .panicked
      else .ok (mapLookup (s.cell rs.ptr) k).isSome

/-- `Map.Get` (`map.go`): the two-valued lookup on the engine's readable
map. -/
def MapState.get {K V : Type} [DecidableEq K] (s : MapState K V) (k : K) : Option V × Bool :=
  goMapRead s.readable k

/-- `Map.Has` (`map.go`): key presence in the engine's readable map. -/
def MapState.has {K V : Type} [DecidableEq K] (s : MapState K V) (k : K) : Bool :=
  (mapLookup s.readable k).isSome

/-- States reachable from a fresh engine by any sequence of API calls. -/
inductive Reachable {K V : Type} [DecidableEq K] : MapState K V → Prop where
  | init (maxLag : Nat) : Reachable (initState K V maxLag)
  | insert {s : MapState K V} (k : K) (v : Option V) :
      Reachable s → Reachable (s.insert k v)
  | delete {s : MapState K V} (k : K) : Reachable s → Reachable (s.delete k).1
  | clear {s : MapState K V} : Reachable s → Reachable s.clear
  | refresh {s : MapState K V} : Reachable s → Reachable s.refresh
  | newReader {s : MapState K V} : Reachable s → Reachable s.newReader.1
  | close {s : MapState K V} (rid : Nat) : Reachable s → Reachable (s.closeReader rid)

theorem cell_setCell {K V : Type} (s : MapState K V) (i j : Bool) (m : GoMap K V) :
    (s.setCell j m).cell i = if i = j then m else s.cell i := by
  cases i <;> cases j <;> simp [MapState.setCell, MapState.cell]

theorem setCell_readableId {K V : Type} (s : MapState K V) (j : Bool) (m : GoMap K V) :
    (s.setCell j m).readableId = s.readableId := by
  cases j <;> rfl

theorem setCell_writableId {K V : Type} (s : MapState K V) (j : Bool) (m : GoMap K V) :
    (s.setCell j m).writableId = s.writableId := by
  cases j <;> rfl

theorem setCell_readers {K V : Type} (s : MapState K V) (j : Bool) (m : GoMap K V) :
    (s.setCell j m).readers = s.readers := by
  cases j <;> rfl

theorem setCell_readerOf {K V : Type} (s : MapState K V) (j : Bool) (m : GoMap K V) :
    (s.setCell j m).readerOf = s.readerOf := by
  cases j <;> rfl

theorem setCell_nextReaderId {K V : Type} (s : MapState K V) (j : Bool) (m : GoMap K V) :
    (s.setCell j m).nextReaderId = s.nextReaderId := by
  cases j <;> rfl

theorem setCell_oplog {K V : Type} (s : MapState K V) (j : Bool) (m : GoMap K V) :
    (s.setCell j m).oplog = s.oplog := by
  cases j <;> rfl

theorem setCell_lag {K V : Type} (s : MapState K V) (j : Bool) (m : GoMap K V) :
    (s.setCell j m).replicationWriteLag = s.replicationWriteLag := by
  cases j <;> rfl

theorem setCell_max {K V : Type} (s : MapState K V) (j : Bool) (m : GoMap K V) :
    (s.setCell j m).maxReplicationWriteLag = s.maxReplicationWriteLag := by
  cases j <;> rfl

theorem pushAndApply_cell {K V : Type} [DecidableEq K] (s : MapState K V) (e : entry K V) (i : Bool) :
    (s.pushAndApply e).cell i =
      if i = s.writableId then applyEntry e (s.cell s.writableId) else s.cell i := by
  unfold MapState.pushAndApply
  rw [cell_setCell]
  cases i <;> cases hw : s.writableId <;> simp [MapState.cell, hw]

theorem pushAndApply_readableId {K V : Type} [DecidableEq K] (s : MapState K V) (e : entry K V) :
    (s.pushAndApply e).readableId = s.readableId := by
  unfold MapState.pushAndApply; rw [setCell_readableId]

theorem pushAndApply_writableId {K V : Type} [DecidableEq K] (s : MapState K V) (e : entry K V) :
    (s.pushAndApply e).writableId = s.writableId := by
  unfold MapState.pushAndApply; rw [setCell_writableId]

theorem pushAndApply_readers {K V : Type} [DecidableEq K] (s : MapState K V) (e : entry K V) :
    (s.pushAndApply e).readers = s.readers := by
  unfold MapState.pushAndApply; rw [setCell_readers]

theorem pushAndApply_readerOf {K V : Type} [DecidableEq K] (s : MapState K V) (e : entry K V) :
    (s.pushAndApply e).readerOf = s.readerOf := by
  unfold MapState.pushAndApply; rw [setCell_readerOf]

theorem pushAndApply_nextReaderId {K V : Type} [DecidableEq K] (s : MapState K V) (e : entry K V) :
    (s.pushAndApply e).nextReaderId = s.nextReaderId := by
  unfold MapState.pushAndApply; rw [setCell_nextReaderId]

theorem pushAndApply_oplog {K V : Type} [DecidableEq K] (s : MapState K V) (e : entry K V) :
    (s.pushAndApply e).oplog = s.oplog ++ [e] := by
  unfold MapState.pushAndApply; rw [setCell_oplog]

theorem pushAndApply_lag {K V : Type} [DecidableEq K] (s : MapState K V) (e : entry K V) :
    (s.pushAndApply e).replicationWriteLag = s.replicationWriteLag := by
  unfold MapState.pushAndApply; rw [setCell_lag]

theorem pushAndApply_max {K V : Type} [DecidableEq K] (s : MapState K V) (e : entry K V) :
    (s.pushAndApply e).maxReplicationWriteLag = s.maxReplicationWriteLag := by
  unfold MapState.pushAndApply; rw [setCell_max]

theorem refresh_readableId {K V : Type} [DecidableEq K] (s : MapState K V) :
    s.refresh.readableId = s.writableId := by
  cases hr : s.readableId <;> cases hw : s.writableId <;>
    simp [MapState.refresh, MapState.syncLocked, MapState.swapLocked, MapState.setCell,
      MapState.cell, hr, hw]

theorem refresh_writableId {K V : Type} [DecidableEq K] (s : MapState K V) :
    s.refresh.writableId = s.readableId := by
  cases hr : s.readableId <;> cases hw : s.writableId <;>
    simp [MapState.refresh, MapState.syncLocked, MapState.swapLocked, MapState.setCell,
      MapState.cell, hr, hw]

theorem refresh_readers {K V : Type} [DecidableEq K] (s : MapState K V) :
    s.refresh.readers = s.readers := by
  cases hr : s.readableId <;> cases hw : s.writableId <;>
    simp [MapState.refresh, MapState.syncLocked, MapState.swapLocked, MapState.setCell,
      MapState.cell, hr, hw]

theorem refresh_readerOf {K V : Type} [DecidableEq K] (s : MapState K V) :
    s.refresh.readerOf = propagateList s.readers s.writableId s.readerOf := by
  cases hr : s.readableId <;> cases hw : s.writableId <;>
    simp [MapState.refresh, MapState.syncLocked, MapState.swapLocked, MapState.setCell,
      MapState.cell, hr, hw]

theorem refresh_nextReaderId {K V : Type} [DecidableEq K] (s : MapState K V) :
    s.refresh.nextReaderId = s.nextReaderId := by
  cases hr : s.readableId <;> cases hw : s.writableId <;>
    simp [MapState.refresh, MapState.syncLocked, MapState.swapLocked, MapState.setCell,
      MapState.cell, hr, hw]

theorem refresh_oplog {K V : Type} [DecidableEq K] (s : MapState K V) :
    s.refresh.oplog = [] := by
  cases hr : s.readableId <;> cases hw : s.writableId <;>
    simp [MapState.refresh, MapState.syncLocked, MapState.swapLocked, MapState.setCell,
      MapState.cell, hr, hw]

theorem refresh_lag {K V : Type} [DecidableEq K] (s : MapState K V) :
    s.refresh.replicationWriteLag = 0 := rfl

theorem refresh_max {K V : Type} [DecidableEq K] (s : MapState K V) :
    s.refresh.maxReplicationWriteLag = s.maxReplicationWriteLag := by
  cases hr : s.readableId <;> cases hw : s.writableId <;>
    simp [MapState.refresh, MapState.syncLocked, MapState.swapLocked, MapState.setCell,
      MapState.cell, hr, hw]

theorem refresh_cell {K V : Type} [DecidableEq K] (s : MapState K V) (i : Bool) :
    s.refresh.cell i =
      if i = s.readableId then logApply s.oplog (s.cell s.readableId) else s.cell i := by
  cases hr : s.readableId <;> cases hw : s.writableId <;> cases i <;>
    simp [MapState.refresh, MapState.syncLocked, MapState.swapLocked, MapState.setCell,
      MapState.cell, hr, hw]

theorem bump_cell {K V : Type} (s : MapState K V) (i : Bool) :
    s.bump.cell i = s.cell i := by
  cases i <;> rfl

theorem observeWrite_eq_bump {K V : Type} [DecidableEq K] (s : MapState K V)
    (h : ¬(0 < s.maxReplicationWriteLag ∧
        s.maxReplicationWriteLag < s.replicationWriteLag + 1)) :
    s.observeWrite = s.bump := by
  unfold MapState.observeWrite
  rw [if_neg]
  exact h

theorem observeWrite_eq_refresh {K V : Type} [DecidableEq K] (s : MapState K V)
    (h : 0 < s.maxReplicationWriteLag ∧
        s.maxReplicationWriteLag < s.replicationWriteLag + 1) :
    s.observeWrite = s.bump.refresh := by
  unfold MapState.observeWrite
  rw [if_pos]
  exact h

theorem lookupRS_append {l1 l2 : List (Nat × ReaderState)} {rid : Nat} :
    lookupRS (l1 ++ l2) rid =
      match lookupRS l1 rid with
      | some rs => some rs
      | none => lookupRS l2 rid := by
  induction l1 with
  | nil => simp [lookupRS]
  | cons p rest ih =>
      obtain ⟨i, rs⟩ := p
      by_cases h : i = rid <;> simp [lookupRS, h, ih]

theorem lookupRS_setReaderPtr (l : List (Nat × ReaderState)) (rid rid' : Nat) (b : Bool) :
    lookupRS (setReaderPtr l rid b) rid' =
      if rid' = rid then (lookupRS l rid').map (fun rs => { rs with ptr := b })
      else lookupRS l rid' := by
  induction l with
  | nil => by_cases h : rid' = rid <;> simp [setReaderPtr, lookupRS, h]
  | cons p rest ih =>
      obtain ⟨i, rs⟩ := p
      by_cases hi : i = rid
      · subst hi
        by_cases h : rid' = i
        · subst h
          simp [setReaderPtr, lookupRS]
        · simp [setReaderPtr, lookupRS, h, Ne.symm h]
      · by_cases h : i = rid'
        · subst h
          simp [setReaderPtr, lookupRS, hi, Ne.symm hi]
        · simp [setReaderPtr, lookupRS, hi, h, ih]

theorem lookupRS_propagateList (rids : List Nat) (b : Bool)
    (l : List (Nat × ReaderState)) (rid : Nat) :
    lookupRS (propagateList rids b l) rid =
      if rid ∈ rids then (lookupRS l rid).map (fun rs => { rs with ptr := b })
      else lookupRS l rid := by
  induction rids generalizing l with
  | nil => simp [propagateList]
  | cons r rest ih =>
      rw [propagateList, ih, lookupRS_setReaderPtr]
      by_cases hmem : rid ∈ rest
      · simp only [hmem, if_true, List.mem_cons, or_true, if_true]
        by_cases h : rid = r
        · simp only [h, if_true]
          cases lookupRS l r <;> rfl
        · simp [h]
      · by_cases h : rid = r
        · subst h
          simp [hmem]
        · simp [hmem, h]

theorem mem_setAt {l : List Nat} {i : Nat} {b x : Nat} (h : x ∈ setAt l i b) :
    x ∈ l ∨ x = b := by
  induction l generalizing i with
  | nil => simp [setAt] at h
  | cons a t ih =>
      cases i with
      | zero =>
          simp [setAt] at h
          rcases h with h | h
          · exact Or.inr h
          · exact Or.inl (List.mem_cons_of_mem _ h)
      | succ n =>
          simp [setAt] at h
          rcases h with h | h
          · exact Or.inl (by simp [h])
          · rcases ih h with h' | h'
            · exact Or.inl (List.mem_cons_of_mem _ h')
            · exact Or.inr h'

theorem lastGet_mem {l : List Nat} (d : Nat) (h : l ≠ []) : lastGet l d ∈ l := by
  induction l generalizing d with
  | nil => exact absurd rfl h
  | cons a t ih =>
      cases ht : t with
      | nil => simp [lastGet, ht]
      | cons b t' =>
          have := ih a (by simp [ht])
          rw [ht] at *
          simp [lastGet]
          right
          simpa [ht] using this

theorem findIndex_ne_nil {l : List Nat} {rid idx : Nat} (h : findIndex l rid = some idx) :
    l ≠ [] := by
  cases l with
  | nil => simp [findIndex] at h
  | cons a t => simp

theorem closeReader_readers {K V : Type} (s : MapState K V) (rid : Nat) :
    (s.closeReader rid).readers = s.readers ∨
      ∃ idx, findIndex s.readers rid = some idx ∧
        (s.closeReader rid).readers = setAt s.readers idx (lastGet s.readers 0) := by
  unfold MapState.closeReader
  cases h : findIndex s.readers rid with
  | none => exact Or.inl rfl
  | some idx => exact Or.inr ⟨idx, rfl, rfl⟩

theorem closeReader_cell {K V : Type} (s : MapState K V) (rid : Nat) (i : Bool) :
    (s.closeReader rid).cell i = s.cell i := by
  unfold MapState.closeReader
  cases findIndex s.readers rid <;> cases i <;> rfl

theorem closeReader_readableId {K V : Type} (s : MapState K V) (rid : Nat) :
    (s.closeReader rid).readableId = s.readableId := by
  unfold MapState.closeReader
  cases findIndex s.readers rid <;> rfl

theorem closeReader_writableId {K V : Type} (s : MapState K V) (rid : Nat) :
    (s.closeReader rid).writableId = s.writableId := by
  unfold MapState.closeReader
  cases findIndex s.readers rid <;> rfl

theorem closeReader_readerOf {K V : Type} (s : MapState K V) (rid : Nat) :
    (s.closeReader rid).readerOf = s.readerOf := by
  unfold MapState.closeReader
  cases findIndex s.readers rid <;> rfl

theorem closeReader_oplog {K V : Type} (s : MapState K V) (rid : Nat) :
    (s.closeReader rid).oplog = s.oplog := by
  unfold MapState.closeReader
  cases findIndex s.readers rid <;> rfl

theorem mem_closeReader_readers {K V : Type} {s : MapState K V} {rid x : Nat}
    (h : x ∈ (s.closeReader rid).readers) : x ∈ s.readers := by
  rcases closeReader_readers s rid with heq | ⟨idx, hfind, heq⟩
  · rwa [heq] at h
  · rw [heq] at h
    rcases mem_setAt h with h' | h'
    · exact h'
    · rw [h']
      exact lastGet_mem 0 (findIndex_ne_nil hfind)

/-- The engine invariant: the two pointers name distinct physical cells;
replaying the oplog onto the readable map yields (pointwise) the
writable map; no reader struct ever has its closed flag set (`Close`
never sets it); every registered reader identity resolves to a reader
struct. -/
structure EngineInv {K V : Type} [DecidableEq K] (s : MapState K V) : Prop where
  ids : s.writableId = !s.readableId
  replay : ∀ k, mapLookup (logApply s.oplog (s.cell s.readableId)) k =
    mapLookup (s.cell s.writableId) k
  closedFalse : ∀ rid rs, lookupRS s.readerOf rid = some rs → rs.closed = false
  registered : ∀ rid, rid ∈ s.readers → (lookupRS s.readerOf rid).isSome = true

theorem engineInv_init {K V : Type} [DecidableEq K] (maxLag : Nat) :
    EngineInv (initState K V maxLag) := by
  refine ⟨rfl, ?_, ?_, ?_⟩
  · intro k; rfl
  · intro rid rs h; simp [initState, lookupRS] at h
  · intro rid h; simp [initState] at h

theorem engineInv_pushAndApply {K V : Type} [DecidableEq K] {s : MapState K V}
    (h : EngineInv s) (e : entry K V) : EngineInv (s.pushAndApply e) := by
  refine ⟨?_, ?_, ?_, ?_⟩
  · rw [pushAndApply_writableId, pushAndApply_readableId]; exact h.ids
  · intro k
    rw [pushAndApply_oplog, pushAndApply_readableId, pushAndApply_writableId,
      logApply_append]
    have hr : (s.pushAndApply e).cell s.readableId = s.cell s.readableId := by
      rw [pushAndApply_cell, if_neg]
      rw [h.ids]
      cases s.readableId <;> simp
    have hw : (s.pushAndApply e).cell s.writableId = applyEntry e (s.cell s.writableId) := by
      rw [pushAndApply_cell, if_pos rfl]
    rw [hr, hw]
    exact mapLookup_applyEntry_congr e _ _ h.replay k
  · intro rid rs hl
    rw [pushAndApply_readerOf] at hl
    exact h.closedFalse rid rs hl
  · intro rid hm
    rw [pushAndApply_readers] at hm
    rw [pushAndApply_readerOf]
    exact h.registered rid hm

theorem engineInv_bump {K V : Type} [DecidableEq K] {s : MapState K V} (h : EngineInv s) : EngineInv s.bump := by
  refine ⟨h.ids, ?_, h.closedFalse, h.registered⟩
  intro k
  have h0 : s.bump.cell s.readableId = s.cell s.readableId := bump_cell s s.readableId
  have h1 : s.bump.cell s.writableId = s.cell s.writableId := bump_cell s s.writableId
  exact h.replay k

theorem engineInv_refresh {K V : Type} [DecidableEq K] {s : MapState K V} (h : EngineInv s) :
    EngineInv s.refresh := by
  have hne : s.readableId ≠ s.writableId := by
    rw [h.ids]; cases s.readableId <;> simp
  refine ⟨?_, ?_, ?_, ?_⟩
  · rw [refresh_writableId, refresh_readableId, h.ids]
    cases s.readableId <;> simp
  · intro k
    rw [refresh_oplog, refresh_readableId, refresh_writableId]
    have hr : s.refresh.cell s.writableId = s.cell s.writableId := by
      rw [refresh_cell, if_neg (Ne.symm hne)]
    have hw : s.refresh.cell s.readableId = logApply s.oplog (s.cell s.readableId) := by
      rw [refresh_cell, if_pos rfl]
    rw [hr, hw]
    simp [logApply]
    exact (h.replay k).symm
  · intro rid rs hl
    rw [refresh_readerOf, lookupRS_propagateList] at hl
    by_cases hm : rid ∈ s.readers
    · rw [if_pos hm] at hl
      cases hl0 : lookupRS s.readerOf rid with
      | none => rw [hl0] at hl; simp at hl
      | some rs0 =>
          rw [hl0] at hl
          simp at hl
          rw [← hl]
          exact h.closedFalse rid rs0 hl0
    · rw [if_neg hm] at hl
      exact h.closedFalse rid rs hl
  · intro rid hm
    rw [refresh_readers] at hm
    rw [refresh_readerOf, lookupRS_propagateList]
    have := h.registered rid hm
    by_cases hmem : rid ∈ s.readers
    · rw [if_pos hmem]
      cases hl0 : lookupRS s.readerOf rid with
      | none => rw [hl0] at this; simp at this
      | some rs0 => simp [hl0]
    · rw [if_neg hmem]
      exact this

theorem engineInv_observeWrite {K V : Type} [DecidableEq K] {s : MapState K V} (h : EngineInv s) :
    EngineInv s.observeWrite := by
  unfold MapState.observeWrite
  by_cases hc : 0 < s.bump.maxReplicationWriteLag ∧
      s.bump.maxReplicationWriteLag < s.bump.replicationWriteLag
  · rw [if_pos hc]; exact engineInv_refresh (engineInv_bump h)
  · rw [if_neg hc]; exact engineInv_bump h

theorem engineInv_newReader {K V : Type} [DecidableEq K] {s : MapState K V} (h : EngineInv s) :
    EngineInv s.newReader.1 := by
  refine ⟨h.ids, ?_, ?_, ?_⟩
  · intro k
    exact h.replay k
  · intro rid rs hl
    simp only [MapState.newReader] at hl
    rw [lookupRS_append] at hl
    cases hl0 : lookupRS s.readerOf rid with
    | some rs0 =>
        rw [hl0] at hl
        simp at hl
        rw [← hl]
        exact h.closedFalse rid rs0 hl0
    | none =>
        rw [hl0] at hl
        simp only [lookupRS] at hl
        by_cases he : s.nextReaderId = rid
        · rw [if_pos he] at hl
          simp at hl
          rw [← hl]
        · rw [if_neg he] at hl
          simp [lookupRS] at hl
  · intro rid hm
    simp only [MapState.newReader] at hm ⊢
    rw [lookupRS_append]
    rw [List.mem_append] at hm
    rcases hm with hm | hm
    · have := h.registered rid hm
      cases hl0 : lookupRS s.readerOf rid with
      | none => rw [hl0] at this; simp at this
      | some rs0 => simp
    · simp at hm
      subst hm
      cases hl0 : lookupRS s.readerOf s.nextReaderId with
      | none => simp [lookupRS]
      | some rs0 => simp

theorem engineInv_closeReader {K V : Type} [DecidableEq K] {s : MapState K V} (h : EngineInv s)
    (rid : Nat) : EngineInv (s.closeReader rid) := by
  refine ⟨?_, ?_, ?_, ?_⟩
  · rw [closeReader_writableId, closeReader_readableId]; exact h.ids
  · intro k
    rw [closeReader_oplog, closeReader_readableId, closeReader_writableId,
      closeReader_cell, closeReader_cell]
    exact h.replay k
  · intro rid' rs hl
    rw [closeReader_readerOf] at hl
    exact h.closedFalse rid' rs hl
  · intro rid' hm
    rw [closeReader_readerOf]
    exact h.registered rid' (mem_closeReader_readers hm)

theorem engineInv_insert {K V : Type} [DecidableEq K] {s : MapState K V} (h : EngineInv s)
    (k : K) (v : Option V) : EngineInv (s.insert k v) :=
  engineInv_observeWrite (engineInv_pushAndApply h _)

theorem engineInv_delete {K V : Type} [DecidableEq K] {s : MapState K V} (h : EngineInv s)
    (k : K) : EngineInv (s.delete k).1 :=
  engineInv_observeWrite (engineInv_pushAndApply h _)

theorem engineInv_clear {K V : Type} [DecidableEq K] {s : MapState K V} (h : EngineInv s) :
    EngineInv s.clear :=
  engineInv_observeWrite (engineInv_pushAndApply h _)

theorem reachable_inv {K V : Type} [DecidableEq K] {s : MapState K V}
    (h : Reachable s) : EngineInv s := by
  induction h with
  | init maxLag => exact engineInv_init maxLag
  | insert k v _ ih => exact engineInv_insert ih k v
  | delete k _ ih => exact engineInv_delete ih k
  | clear _ ih => exact engineInv_clear ih
  | refresh _ ih => exact engineInv_refresh ih
  | newReader _ ih => exact engineInv_newReader ih
  | close rid _ ih => exact engineInv_closeReader ih rid

theorem refresh_readable_eq_writable {K V : Type} [DecidableEq K] {s : MapState K V}
    (h : EngineInv s) : s.refresh.readable = s.writable := by
  unfold MapState.readable MapState.writable
  rw [refresh_readableId, refresh_cell, if_neg]
  rw [h.ids]
  cases s.readableId <;> simp

theorem observeWrite_writable_lookup {K V : Type} [DecidableEq K] {s : MapState K V}
    (h : EngineInv s) (k : K) :
    mapLookup s.observeWrite.writable k = mapLookup s.writable k := by
  unfold MapState.observeWrite
  by_cases hc : 0 < s.bump.maxReplicationWriteLag ∧
      s.bump.maxReplicationWriteLag < s.bump.replicationWriteLag
  · rw [if_pos hc]
    unfold MapState.writable
    rw [refresh_writableId, refresh_cell, if_pos rfl]
    have hb2 : (s.bump.readableId : Bool) = s.readableId := rfl
    have hb3 : s.bump.oplog = s.oplog := rfl
    rw [hb3, hb2, bump_cell s s.readableId]
    exact h.replay k
  · rw [if_neg hc]
    unfold MapState.writable
    have : s.bump.cell s.bump.writableId = s.cell s.writableId := bump_cell s s.writableId
    rw [this]

theorem reader_struct_after_refresh {K V : Type} [DecidableEq K] {s : MapState K V}
    {rid : Nat} {rs : ReaderState} (hrs : lookupRS s.readerOf rid = some rs)
    (hm : rid ∈ s.readers) :
    lookupRS s.refresh.readerOf rid = some { rs with ptr := s.writableId } := by
  rw [refresh_readerOf, lookupRS_propagateList, if_pos hm, hrs]
  rfl

theorem reader_view_refresh {K V : Type} [DecidableEq K] {s : MapState K V}
    (h : EngineInv s) {rid : Nat} (hm : rid ∈ s.readers) (k : K) :
    s.refresh.readerGet rid k =
      ReadResult.ok (goMapRead s.writable k).1 (goMapRead s.writable k).2 ∧
    s.refresh.readerHas rid k = HasResult.ok (mapLookup s.writable k).isSome := by
  have hreg := h.registered rid hm
  cases hrs : lookupRS s.readerOf rid with
  | none => rw [hrs] at hreg; simp at hreg
  | some rs =>
      have hclosed : rs.closed = false := h.closedFalse rid rs hrs
      have hlift := reader_struct_after_refresh hrs hm
      have hcell : s.refresh.cell s.writableId = s.cell s.writableId := by
        rw [refresh_cell, if_neg]
        rw [h.ids]
        cases s.readableId <;> simp
      constructor
      · unfold MapState.readerGet
        rw [hlift]
        simp only [hclosed, Bool.false_eq_true, if_false]
        rw [hcell]
        rfl
      · unfold MapState.readerHas
        rw [hlift]
        simp only [hclosed, Bool.false_eq_true, if_false]
        rw [hcell]
        rfl

/-- One buffered mutation call at the engine API: insert, delete or
clear. -/
inductive MutOp (K V : Type) where
  | ins (k : K) (v : Option V)
  | del (k : K)
  | clr

/-- The oplog entry a mutation call constructs. -/
def opEntry {K V : Type} : MutOp K V → entry K V
  | .ins k v => .insert k v
  | .del k => .delete k
  | .clr => .clear

/-- Performing one mutation call (discarding delete's returned flag). -/
def MapState.applyMut {K V : Type} [DecidableEq K] (s : MapState K V) : MutOp K V → MapState K V
  | .ins k v => s.insert k v
  | .del k => (s.delete k).1
  | .clr => s.clear

/-- Performing a sequence of mutation calls in order. -/
def MapState.applyMuts {K V : Type} [DecidableEq K] (s : MapState K V) :
    List (MutOp K V) → MapState K V
  | [] => s
  | op :: rest => (s.applyMut op).applyMuts rest

/-- No automatic refresh can fire during the next `n` writes: either the
threshold is disabled or the counter stays within it. -/
def noAutoRefresh {K V : Type} (s : MapState K V) (n : Nat) : Prop :=
  s.maxReplicationWriteLag = 0 ∨
    s.replicationWriteLag + n ≤ s.maxReplicationWriteLag

theorem applyMut_eq {K V : Type} [DecidableEq K] (s : MapState K V) (op : MutOp K V) :
    s.applyMut op = (s.pushAndApply (opEntry op)).observeWrite := by
  cases op <;> rfl

theorem applyMut_noTrigger {K V : Type} [DecidableEq K] (s : MapState K V) (op : MutOp K V)
    (h : noAutoRefresh s 1) :
    s.applyMut op = (s.pushAndApply (opEntry op)).bump := by
  rw [applyMut_eq, observeWrite_eq_bump]
  rw [pushAndApply_max, pushAndApply_lag]
  rcases h with h | h
  · rw [h]; omega
  · omega

theorem applyMut_noTrigger_fields {K V : Type} [DecidableEq K] (s : MapState K V)
    (op : MutOp K V) (h : noAutoRefresh s 1) :
    (s.applyMut op).readerOf = s.readerOf ∧
    (s.applyMut op).readableId = s.readableId ∧
    (s.applyMut op).writableId = s.writableId ∧
    (∀ i, i ≠ s.writableId → (s.applyMut op).cell i = s.cell i) ∧
    (s.applyMut op).replicationWriteLag = s.replicationWriteLag + 1 ∧
    (s.applyMut op).maxReplicationWriteLag = s.maxReplicationWriteLag := by
  rw [applyMut_noTrigger s op h]
  refine ⟨?_, ?_, ?_, ?_, ?_, ?_⟩
  · show (s.pushAndApply (opEntry op)).readerOf = s.readerOf
    exact pushAndApply_readerOf s _
  · show (s.pushAndApply (opEntry op)).readableId = s.readableId
    exact pushAndApply_readableId s _
  · show (s.pushAndApply (opEntry op)).writableId = s.writableId
    exact pushAndApply_writableId s _
  · intro i hi
    have : (s.pushAndApply (opEntry op)).bump.cell i = (s.pushAndApply (opEntry op)).cell i :=
      bump_cell _ i
    rw [this, pushAndApply_cell, if_neg hi]
  · show (s.pushAndApply (opEntry op)).replicationWriteLag + 1 = s.replicationWriteLag + 1
    rw [pushAndApply_lag]
  · show (s.pushAndApply (opEntry op)).maxReplicationWriteLag = s.maxReplicationWriteLag
    exact pushAndApply_max s _

theorem reachable_applyMut {K V : Type} [DecidableEq K] {s : MapState K V}
    (h : Reachable s) (op : MutOp K V) : Reachable (s.applyMut op) := by
  cases op with
  | ins k v => exact Reachable.insert k v h
  | del k => exact Reachable.delete k h
  | clr => exact Reachable.clear h

theorem goMapRead_some {K V : Type} [DecidableEq K] {m : GoMap K V} {k : K} {v : Option V}
    (h : mapLookup m k = some v) : goMapRead m k = (v, true) := by
  unfold goMapRead
  rw [h]

theorem goMapRead_none {K V : Type} [DecidableEq K] {m : GoMap K V} {k : K}
    (h : mapLookup m k = none) : goMapRead m k = (none, false) := by
  unfold goMapRead
  rw [h]

theorem observeWrite_readers {K V : Type} [DecidableEq K] (s : MapState K V) :
    s.observeWrite.readers = s.readers := by
  unfold MapState.observeWrite
  by_cases hc : 0 < s.bump.maxReplicationWriteLag ∧
      s.bump.maxReplicationWriteLag < s.bump.replicationWriteLag
  · rw [if_pos hc, refresh_readers]; rfl
  · rw [if_neg hc]; rfl

theorem insert_readers {K V : Type} [DecidableEq K] (s : MapState K V) (k : K) (v : Option V) :
    (s.insert k v).readers = s.readers := by
  unfold MapState.insert
  rw [observeWrite_readers, pushAndApply_readers]

theorem insert_writable_lookup {K V : Type} [DecidableEq K] {s : MapState K V}
    (h : EngineInv s) (k : K) (v : Option V) :
    mapLookup (s.insert k v).writable k = some v := by
  unfold MapState.insert
  rw [observeWrite_writable_lookup (engineInv_pushAndApply h _) k]
  unfold MapState.writable
  rw [pushAndApply_writableId, pushAndApply_cell, if_pos rfl]
  show mapLookup (mapInsert (s.cell s.writableId) k v) k = some v
  rw [mapLookup_mapInsert, if_pos rfl]

theorem lookup_logApply_final_delete {K V : Type} [DecidableEq K]
    (l : List (entry K V)) (m : GoMap K V) (k : K) :
    mapLookup (logApply (l ++ [entry.delete k]) m) k = none := by
  rw [logApply_append]
  show mapLookup (mapDelete (logApply l m) k) k = none
  rw [mapLookup_mapDelete, if_pos rfl]

theorem delete_writable_none {K V : Type} [DecidableEq K] (s : MapState K V) (k : K) :
    mapLookup (s.delete k).1.writable k = none := by
  show mapLookup ((s.pushAndApply (entry.delete k)).observeWrite).writable k = none
  unfold MapState.observeWrite
  by_cases hc : 0 < (s.pushAndApply (entry.delete k)).bump.maxReplicationWriteLag ∧
      (s.pushAndApply (entry.delete k)).bump.maxReplicationWriteLag <
        (s.pushAndApply (entry.delete k)).bump.replicationWriteLag
  · rw [if_pos hc]
    unfold MapState.writable
    rw [refresh_writableId, refresh_cell, if_pos rfl]
    have hcell : (s.pushAndApply (entry.delete k)).bump.cell
        (s.pushAndApply (entry.delete k)).bump.readableId =
        (s.pushAndApply (entry.delete k)).cell (s.pushAndApply (entry.delete k)).readableId :=
      bump_cell _ _
    have hlog : (s.pushAndApply (entry.delete k)).bump.oplog = s.oplog ++ [entry.delete k] := by
      show (s.pushAndApply (entry.delete k)).oplog = s.oplog ++ [entry.delete k]
      exact pushAndApply_oplog s _
    rw [hlog]
    exact lookup_logApply_final_delete s.oplog _ k
  · rw [if_neg hc]
    unfold MapState.writable
    have h1 : (s.pushAndApply (entry.delete k)).bump.cell
        (s.pushAndApply (entry.delete k)).bump.writableId =
        (s.pushAndApply (entry.delete k)).cell (s.pushAndApply (entry.delete k)).writableId :=
      bump_cell _ _
    have h2 : ((s.pushAndApply (entry.delete k)).bump.writableId : Bool) =
        (s.pushAndApply (entry.delete k)).writableId := rfl
    show mapLookup ((s.pushAndApply (entry.delete k)).bump.cell
        (s.pushAndApply (entry.delete k)).bump.writableId) k = none
    rw [h1, pushAndApply_writableId, pushAndApply_cell, if_pos rfl]
    show mapLookup (mapDelete (s.cell s.writableId) k) k = none
    rw [mapLookup_mapDelete, if_pos rfl]

theorem reader_view_stable {K V : Type} [DecidableEq K] {s s' : MapState K V}
    (hro : s'.readerOf = s.readerOf) {rid : Nat} {rs : ReaderState}
    (hrs : lookupRS s.readerOf rid = some rs)
    (hcell : s'.cell rs.ptr = s.cell rs.ptr) (k : K) :
    s'.readerGet rid k = s.readerGet rid k ∧ s'.readerHas rid k = s.readerHas rid k := by
  unfold MapState.readerGet MapState.readerHas
  rw [hro, hrs]
  constructor
  · simp only [hcell]
  · simp only [hcell]

/-- C7: for every key and every engine state, `delete(key)` returns true
iff the key was present in the writable copy immediately before the
deletion was applied, and after the call returns the key is absent from
the writable copy (also when the call triggered an automatic refresh). -/
theorem c7_delete_reports_presence {K V : Type} [DecidableEq K] (s : MapState K V) (k : K) :
    (s.delete k).2 = (mapLookup s.writable k).isSome ∧
    mapLookup (s.delete k).1.writable k = none := by
  constructor
  · rfl
  · exact delete_writable_none s k

/-- C8: `apply` replays every entry in insertion order; an insert entry
sets or overwrites its key, a delete entry removes its key and is a no-op
on an absent key, and a clear entry removes every key currently in the
target map. -/
theorem c8_oplog_apply_spec {K V : Type} [DecidableEq K] (l1 l2 : List (entry K V))
    (e : entry K V) (m m0 : GoMap K V) (k k' k0 : K) (v : Option V)
    (habs : mapLookup m0 k0 = none) :
    logApply (l1 ++ l2) m = logApply l2 (logApply l1 m) ∧
    logApply (l1 ++ [e]) m = applyEntry e (logApply l1 m) ∧
    mapLookup (applyEntry (entry.insert k v) m) k' =
      (if k' = k then some v else mapLookup m k') ∧
    mapLookup (applyEntry (entry.delete k) m) k' =
      (if k' = k then none else mapLookup m k') ∧
    applyEntry (entry.delete k0) m0 = m0 ∧
    mapLookup (applyEntry entry.clear m) k' = none := by
  refine ⟨logApply_append l1 l2 m, ?_, ?_, ?_, ?_, ?_⟩
  · rw [logApply_append]
    rfl
  · exact mapLookup_mapInsert m k k' v
  · exact mapLookup_mapDelete m k k'
  · exact mapDelete_absent m0 k0 habs
  · rfl

/-- Witness for C8 at concrete inputs. -/
theorem c8_oplog_apply_spec_witness :
    logApply ([entry.insert 1 (some 5)] ++ [entry.clear]) [(2, some 9)] =
      logApply [entry.clear] (logApply [entry.insert 1 (some 5)] [(2, some 9)]) ∧
    logApply ([entry.insert 1 (some 5)] ++ [entry.clear]) [(2, some 9)] =
      applyEntry entry.clear (logApply [entry.insert 1 (some 5)] [(2, some 9)]) ∧
    mapLookup (applyEntry (entry.insert 1 (some 5)) [(2, some 9)]) 1 =
      (if (1 : Nat) = 1 then some (some 5) else mapLookup [(2, some 9)] 1) ∧
    mapLookup (applyEntry (entry.delete (1 : Nat)) [(2, some 9)]) 1 =
      (if (1 : Nat) = 1 then none else mapLookup [(2, some 9)] 1) ∧
    applyEntry (entry.delete (3 : Nat)) [(2, some (9 : Nat))] = [(2, some 9)] ∧
    mapLookup (applyEntry entry.clear [(2, some (9 : Nat))]) 1 = none :=
  c8_oplog_apply_spec [entry.insert 1 (some 5)] [entry.clear] entry.clear
    [(2, some 9)] [(2, some 9)] 1 1 3 (some 5) (by decide)

/-- C2: in every reachable state, replaying the buffered oplog onto the
readable copy yields exactly the writable copy (pointwise), and
immediately after a refresh the log is empty and the two copies agree. -/
theorem c2_replay_equivalence {K V : Type} [DecidableEq K] (s : MapState K V)
    (h : Reachable s) (k : K) :
    mapLookup (logApply s.oplog s.readable) k = mapLookup s.writable k ∧
    s.refresh.oplog = [] ∧
    mapLookup s.refresh.readable k = mapLookup s.refresh.writable k := by
  refine ⟨(reachable_inv h).replay k, refresh_oplog s, ?_⟩
  have h' := reachable_inv (Reachable.refresh h)
  have := h'.replay k
  rw [refresh_oplog] at this
  exact this

/-- State for the C2 witness: a fresh engine after one insert. -/
def c2state : MapState Nat Nat := (initState Nat Nat 0).insert 0 (some 1)

/-- Witness for C2 at a concrete reachable state. -/
theorem c2_replay_equivalence_witness :
    mapLookup (logApply c2state.oplog c2state.readable) 0 = mapLookup c2state.writable 0 ∧
    c2state.refresh.oplog = [] ∧
    mapLookup c2state.refresh.readable 0 = mapLookup c2state.refresh.writable 0 :=
  c2_replay_equivalence c2state (Reachable.insert 0 (some 1) (Reachable.init 0)) 0

/-- C1: after `refresh()` returns, every reader handle registered (in the
registry) at the moment of the refresh reports, through `get` and `has`,
exactly the key set and values of the writable copy immediately before
the refresh. -/
theorem c1_refresh_visibility {K V : Type} [DecidableEq K] (s : MapState K V)
    (h : Reachable s) (rid : Nat) (hm : rid ∈ s.readers) (k : K) :
    s.refresh.readerGet rid k =
      ReadResult.ok (goMapRead s.writable k).1 (goMapRead s.writable k).2 ∧
    s.refresh.readerHas rid k = HasResult.ok (mapLookup s.writable k).isSome :=
  reader_view_refresh (reachable_inv h) hm k

/-- State for the C1 witness: a registered reader, then one insert. -/
def c1state : MapState Nat Nat := (initState Nat Nat 0).newReader.1.insert 0 (some 7)

/-- Witness for C1 at a concrete reachable state. -/
theorem c1_refresh_visibility_witness :
    (0 ∈ c1state.readers) ∧
    (c1state.refresh.readerGet 0 0 =
      ReadResult.ok (goMapRead c1state.writable 0).1 (goMapRead c1state.writable 0).2 ∧
    c1state.refresh.readerHas 0 0 = HasResult.ok (mapLookup c1state.writable 0).isSome) :=
  ⟨by decide,
    c1_refresh_visibility c1state
      (Reachable.insert 0 (some 7) (Reachable.newReader (Reachable.init 0))) 0 (by decide) 0⟩

/-- C9: the found flag, not the value, signals presence: a key inserted
with a nil value and exposed by a refresh reads back as `(nil, true)` on
the engine and on a registered reader handle, while a key never inserted,
or deleted before the last refresh, reads back as `(nil, false)`. -/
theorem c9_found_flag {K V : Type} [DecidableEq K] (s : MapState K V)
    (h : Reachable s) (rid : Nat) (hm : rid ∈ s.readers) (k : K) :
    (s.insert k none).refresh.get k = (none, true) ∧
    (s.insert k none).refresh.readerGet rid k = ReadResult.ok none true ∧
    (s.delete k).1.refresh.get k = (none, false) ∧
    (initState K V 0).get k = (none, false) := by
  have h1 := reachable_inv h
  have hins : EngineInv (s.insert k none) := engineInv_insert h1 k none
  have hlook := insert_writable_lookup h1 k none
  refine ⟨?_, ?_, ?_, rfl⟩
  · unfold MapState.get
    rw [refresh_readable_eq_writable hins, goMapRead_some hlook]
  · have hm' : rid ∈ (s.insert k none).readers := by
      rw [insert_readers]; exact hm
    have hv := (reader_view_refresh hins hm' k).1
    rw [hv, goMapRead_some hlook]
  · unfold MapState.get
    rw [refresh_readable_eq_writable (engineInv_delete h1 k),
      goMapRead_none (delete_writable_none s k)]

/-- State for the C9 witness: a fresh engine with one registered reader. -/
def c9state : MapState Nat Nat := (initState Nat Nat 0).newReader.1

/-- Witness for C9 at a concrete reachable state. -/
theorem c9_found_flag_witness :
    (0 ∈ c9state.readers) ∧
    ((c9state.insert 5 none).refresh.get 5 = (none, true) ∧
    (c9state.insert 5 none).refresh.readerGet 0 5 = ReadResult.ok none true ∧
    (c9state.delete 5).1.refresh.get 5 = (none, false) ∧
    (initState Nat Nat 0).get 5 = (none, false)) :=
  ⟨by decide,
    c9_found_flag c9state (Reachable.newReader (Reachable.init 0)) 0 (by decide) 5⟩

/-- C3: a sequence of mutation calls during which no refresh fires leaves
the view of a previously created reader handle untouched: its `get` and
`has` answers are unchanged, and a key absent from its view before the
mutations still reports `has = false` afterwards. -/
theorem c3_read_isolation {K V : Type} [DecidableEq K] (s : MapState K V)
    (h : Reachable s) (ops : List (MutOp K V)) (rid : Nat) (rs : ReaderState)
    (hrs : lookupRS s.readerOf rid = some rs) (hptr : rs.ptr = s.readableId)
    (hno : noAutoRefresh s ops.length) (k : K) :
    (s.applyMuts ops).readerGet rid k = s.readerGet rid k ∧
    (s.applyMuts ops).readerHas rid k = s.readerHas rid k ∧
    (mapLookup (s.cell rs.ptr) k = none →
      (s.applyMuts ops).readerHas rid k = HasResult.ok false) := by
  induction ops generalizing s with
  | nil =>
      refine ⟨rfl, rfl, ?_⟩
      intro habs
      show s.readerHas rid k = HasResult.ok false
      unfold MapState.readerHas
      rw [hrs]
      have hcl : rs.closed = false := (reachable_inv h).closedFalse rid rs hrs
      simp [hcl, habs]
  | cons op rest ih =>
      have hinv := reachable_inv h
      have hne : rs.ptr ≠ s.writableId := by
        rw [hptr, hinv.ids]
        cases s.readableId <;> simp
      have hno1 : noAutoRefresh s 1 := by
        rcases hno with h0 | h0
        · exact Or.inl h0
        · right
          simp only [List.length_cons] at h0
          omega
      obtain ⟨hro, hrid, hwid, hcells, hlag, hmax⟩ := applyMut_noTrigger_fields s op hno1
      have h' : Reachable (s.applyMut op) := reachable_applyMut h op
      have hrs' : lookupRS (s.applyMut op).readerOf rid = some rs := by
        rw [hro]; exact hrs
      have hptr' : rs.ptr = (s.applyMut op).readableId := by
        rw [hrid]; exact hptr
      have hno' : noAutoRefresh (s.applyMut op) rest.length := by
        rcases hno with h0 | h0
        · exact Or.inl (by rw [hmax]; exact h0)
        · right
          rw [hmax, hlag]
          simp only [List.length_cons] at h0
          omega
      have hcellp : (s.applyMut op).cell rs.ptr = s.cell rs.ptr := hcells rs.ptr hne
      have hstep := reader_view_stable hro hrs hcellp k
      have hmuts : s.applyMuts (op :: rest) = (s.applyMut op).applyMuts rest := rfl
      obtain ⟨ih1, ih2, ih3⟩ := ih (s.applyMut op) h' hrs' hptr' hno'
      refine ⟨?_, ?_, ?_⟩
      · rw [hmuts, ih1, hstep.1]
      · rw [hmuts, ih2, hstep.2]
      · intro habs
        rw [hmuts]
        apply ih3
        rw [hcellp]
        exact habs

/-- Mutation sequence for the C3 witness. -/
def c3ops : List (MutOp Nat Nat) := [MutOp.ins 1 (some 2), MutOp.del 1, MutOp.clr]

/-- Witness for C3 at a concrete reachable state and mutation sequence. -/
theorem c3_read_isolation_witness :
    (lookupRS c9state.readerOf 0 = some { closed := false, ptr := false } ∧
      ReaderState.ptr { closed := false, ptr := false } = c9state.readableId ∧
      noAutoRefresh c9state c3ops.length ∧
      mapLookup (c9state.cell false) 1 = none) ∧
    ((c9state.applyMuts c3ops).readerGet 0 1 = c9state.readerGet 0 1 ∧
    (c9state.applyMuts c3ops).readerHas 0 1 = c9state.readerHas 0 1 ∧
    (mapLookup (c9state.cell (ReaderState.ptr { closed := false, ptr := false })) 1 = none →
      (c9state.applyMuts c3ops).readerHas 0 1 = HasResult.ok false)) :=
  ⟨⟨by decide, by decide, Or.inl (by decide), by decide⟩,
    c3_read_isolation c9state (Reachable.newReader (Reachable.init 0)) c3ops 0
      { closed := false, ptr := false } (by decide) (by decide)
      (Or.inl (by decide)) 1⟩

/-- C4: with `maxReplicationWriteLag = 3` and a reader registered before
any writes, the first three inserts stay invisible to the reader, and the
fourth insert on a fourth distinct key triggers an automatic refresh
before it returns — the counter is reset to zero, the oplog is cleared,
and the reader then observes all four keys. -/
theorem c4_auto_refresh_scenario {K V : Type} [DecidableEq K]
    (k1 k2 k3 k4 : K) (v1 v2 v3 v4 : Option V)
    (h12 : k1 ≠ k2) (h13 : k1 ≠ k3) (h14 : k1 ≠ k4)
    (h23 : k2 ≠ k3) (h24 : k2 ≠ k4) (h34 : k3 ≠ k4) :
    ((((initState K V 3).newReader.1.insert k1 v1).insert k2 v2).insert k3 v3).readerHas
        (initState K V 3).newReader.2 k1 = HasResult.ok false ∧
    (((((initState K V 3).newReader.1.insert k1 v1).insert k2 v2).insert k3 v3).insert
        k4 v4).replicationWriteLag = 0 ∧
    (((((initState K V 3).newReader.1.insert k1 v1).insert k2 v2).insert k3 v3).insert
        k4 v4).oplog = [] ∧
    (((((initState K V 3).newReader.1.insert k1 v1).insert k2 v2).insert k3 v3).insert
        k4 v4).readerHas (initState K V 3).newReader.2 k1 = HasResult.ok true ∧
    (((((initState K V 3).newReader.1.insert k1 v1).insert k2 v2).insert k3 v3).insert
        k4 v4).readerHas (initState K V 3).newReader.2 k2 = HasResult.ok true ∧
    (((((initState K V 3).newReader.1.insert k1 v1).insert k2 v2).insert k3 v3).insert
        k4 v4).readerHas (initState K V 3).newReader.2 k3 = HasResult.ok true ∧
    (((((initState K V 3).newReader.1.insert k1 v1).insert k2 v2).insert k3 v3).insert
        k4 v4).readerHas (initState K V 3).newReader.2 k4 = HasResult.ok true := by
  have hrid : (initState K V 3).newReader.2 = 0 := rfl
  have hs0 : (initState K V 3).newReader.1 =
      (⟨[], [], false, true, [0], [(0, ⟨false, false⟩)], 1, [], 0, 3⟩ : MapState K V) := rfl
  have hs1 : ((⟨[], [], false, true, [0], [(0, ⟨false, false⟩)], 1, [], 0, 3⟩ :
        MapState K V).insert k1 v1) =
      (⟨[], mapInsert [] k1 v1, false, true, [0], [(0, ⟨false, false⟩)], 1,
        [entry.insert k1 v1], 1, 3⟩ : MapState K V) := rfl
  have hs2 : ((⟨[], mapInsert [] k1 v1, false, true, [0], [(0, ⟨false, false⟩)], 1,
        [entry.insert k1 v1], 1, 3⟩ : MapState K V).insert k2 v2) =
      (⟨[], mapInsert (mapInsert [] k1 v1) k2 v2, false, true, [0], [(0, ⟨false, false⟩)], 1,
        [entry.insert k1 v1, entry.insert k2 v2], 2, 3⟩ : MapState K V) := rfl
  have hs3 : ((⟨[], mapInsert (mapInsert [] k1 v1) k2 v2, false, true, [0],
        [(0, ⟨false, false⟩)], 1, [entry.insert k1 v1, entry.insert k2 v2], 2, 3⟩ :
        MapState K V).insert k3 v3) =
      (⟨[], mapInsert (mapInsert (mapInsert [] k1 v1) k2 v2) k3 v3, false, true, [0],
        [(0, ⟨false, false⟩)], 1,
        [entry.insert k1 v1, entry.insert k2 v2, entry.insert k3 v3], 3, 3⟩ :
        MapState K V) := rfl
  have hs4 : ((⟨[], mapInsert (mapInsert (mapInsert [] k1 v1) k2 v2) k3 v3, false, true, [0],
        [(0, ⟨false, false⟩)], 1,
        [entry.insert k1 v1, entry.insert k2 v2, entry.insert k3 v3], 3, 3⟩ :
        MapState K V).insert k4 v4) =
      (⟨mapInsert (mapInsert (mapInsert (mapInsert [] k1 v1) k2 v2) k3 v3) k4 v4,
        mapInsert (mapInsert (mapInsert (mapInsert [] k1 v1) k2 v2) k3 v3) k4 v4,
        true, false, [0], [(0, ⟨false, true⟩)], 1, [], 0, 3⟩ : MapState K V) := rfl
  rw [hrid, hs0, hs1, hs2, hs3, hs4]
  refine ⟨rfl, rfl, rfl, ?_, ?_, ?_, ?_⟩
  · show HasResult.ok (mapLookup (mapInsert (mapInsert (mapInsert
        (mapInsert ([] : GoMap K V) k1 v1) k2 v2) k3 v3) k4 v4) k1).isSome =
      HasResult.ok true
    simp [mapLookup_mapInsert, h12, h13, h14]
  · show HasResult.ok (mapLookup (mapInsert (mapInsert (mapInsert
        (mapInsert ([] : GoMap K V) k1 v1) k2 v2) k3 v3) k4 v4) k2).isSome =
      HasResult.ok true
    simp [mapLookup_mapInsert, h23, h24]
  · show HasResult.ok (mapLookup (mapInsert (mapInsert (mapInsert
        (mapInsert ([] : GoMap K V) k1 v1) k2 v2) k3 v3) k4 v4) k3).isSome =
      HasResult.ok true
    simp [mapLookup_mapInsert, h34]
  · show HasResult.ok (mapLookup (mapInsert (mapInsert (mapInsert
        (mapInsert ([] : GoMap K V) k1 v1) k2 v2) k3 v3) k4 v4) k4).isSome =
      HasResult.ok true
    simp [mapLookup_mapInsert]

/-- Third and fourth states of the C4 witness scenario. -/
def c4w3 : MapState Nat Nat :=
  (((initState Nat Nat 3).newReader.1.insert 0 (some 10)).insert 1 (some 11)).insert 2 (some 12)

/-- Fourth state of the C4 witness scenario. -/
def c4w4 : MapState Nat Nat := c4w3.insert 3 (some 13)

/-- Witness for C4 with the concrete distinct keys 0, 1, 2, 3. -/
theorem c4_auto_refresh_scenario_witness :
    ((0 : Nat) ≠ 1 ∧ (0 : Nat) ≠ 2 ∧ (0 : Nat) ≠ 3 ∧ (1 : Nat) ≠ 2 ∧
      (1 : Nat) ≠ 3 ∧ (2 : Nat) ≠ 3) ∧
    (c4w3.readerHas (initState Nat Nat 3).newReader.2 0 = HasResult.ok false ∧
      c4w4.replicationWriteLag = 0 ∧
      c4w4.oplog = [] ∧
      c4w4.readerHas (initState Nat Nat 3).newReader.2 0 = HasResult.ok true ∧
      c4w4.readerHas (initState Nat Nat 3).newReader.2 1 = HasResult.ok true ∧
      c4w4.readerHas (initState Nat Nat 3).newReader.2 2 = HasResult.ok true ∧
      c4w4.readerHas (initState Nat Nat 3).newReader.2 3 = HasResult.ok true) :=
  ⟨by decide,
    c4_auto_refresh_scenario 0 1 2 3 (some 10) (some 11) (some 12) (some 13)
      (by decide) (by decide) (by decide) (by decide) (by decide) (by decide)⟩

/-- State for the C5 evidence: a fresh engine with one registered reader. -/
def c5state : MapState Nat Nat := (initState Nat Nat 0).newReader.1

/-- C5 evidence (code bug): after `close()` the handle's `get`/`has` do
not fail — `Close` never sets the `closed` flag, so the panic branch is
dead and the calls silently return a lookup result. -/
theorem c5_close_then_read_silently_succeeds :
    (c5state.closeReader 0).readerGet 0 7 = ReadResult.ok none false ∧
    (c5state.closeReader 0).readerHas 0 7 = HasResult.ok false ∧
    lookupRS (c5state.closeReader 0).readerOf 0 = some { closed := false, ptr := false } := by
  decide

/-- State for the C6 evidence: one registered reader and one insert. -/
def c6one : MapState Nat Nat := (initState Nat Nat 0).newReader.1.insert 3 (some 9)

/-- State for the C6 evidence: two registered readers. -/
def c6two : MapState Nat Nat := (initState Nat Nat 0).newReader.1.newReader.1

/-- C6 evidence (code bug): `close()` fails to unregister — the shortened
slice that `remove` returns is discarded, so closing the sole handle
leaves the registry unchanged and a later refresh still updates the
closed handle's pointer; closing the first of two handles leaves the
registry length at two with the last handle duplicated. -/
theorem c6_close_leaves_handle_registered :
    (c6one.closeReader 0).readers = [0] ∧
    lookupRS ((c6one.closeReader 0).refresh).readerOf 0 =
      some { closed := false, ptr := true } ∧
    (c6two.closeReader 0).readers = [1, 1] := by
  decide

/-- State for the C10 counterexample: threshold 1 and one prior insert,
so the next write crosses the threshold. -/
def c10state : MapState Nat Nat := (initState Nat Nat 1).insert 0 (some 5)

/-- Counterexample for C10: a delete of an absent key that crosses the
automatic-refresh threshold neither appends to the oplog nor leaves the
counter incremented nor leaves the copies' contents unchanged. -/
theorem c10_delete_absent_counterexample :
    mapLookup c10state.writable 1 = none ∧
    (c10state.delete 1).2 = false ∧
    ¬((c10state.delete 1).1.oplog = c10state.oplog ++ [entry.delete 1]) ∧
    ¬((c10state.delete 1).1.replicationWriteLag = c10state.replicationWriteLag + 1) ∧
    ¬((c10state.delete 1).1.cell false = c10state.cell false) := by
  decide

/-- C10 (amended): a delete of an absent key returns false, and — provided
the call does not itself cross the automatic-refresh threshold — leaves
both physical map copies unchanged while still appending one delete entry
to the oplog and incrementing the write counter. -/
theorem c10_delete_absent_effects {K V : Type} [DecidableEq K] (s : MapState K V) (k : K)
    (i : Bool) (habs : mapLookup s.writable k = none) (hno : noAutoRefresh s 1) :
    (s.delete k).2 = false ∧
    (s.delete k).1.cell i = s.cell i ∧
    (s.delete k).1.oplog = s.oplog ++ [entry.delete k] ∧
    (s.delete k).1.replicationWriteLag = s.replicationWriteLag + 1 := by
  have hmut : (s.delete k).1 = s.applyMut (MutOp.del k) := rfl
  have heq := applyMut_noTrigger s (MutOp.del k) hno
  refine ⟨?_, ?_, ?_, ?_⟩
  · show (mapLookup (s.cell s.writableId) k).isSome = false
    have : mapLookup (s.cell s.writableId) k = none := habs
    rw [this]
    rfl
  · rw [hmut, heq]
    have hb : (s.pushAndApply (opEntry (MutOp.del k))).bump.cell i =
        (s.pushAndApply (opEntry (MutOp.del k))).cell i := bump_cell _ _
    by_cases hi : i = s.writableId
    · rw [hb, pushAndApply_cell, if_pos hi, hi]
      show mapDelete (s.cell s.writableId) k = s.cell s.writableId
      exact mapDelete_absent _ _ habs
    · rw [hb, pushAndApply_cell, if_neg hi]
  · rw [hmut, heq]
    show (s.pushAndApply (opEntry (MutOp.del k))).oplog = s.oplog ++ [entry.delete k]
    exact pushAndApply_oplog s _
  · rw [hmut, heq]
    show (s.pushAndApply (opEntry (MutOp.del k))).replicationWriteLag + 1 =
      s.replicationWriteLag + 1
    rw [pushAndApply_lag]

/-- Witness for the amended C10 at a concrete state. -/
theorem c10_delete_absent_effects_witness :
    (mapLookup c2state.writable 1 = none ∧ noAutoRefresh c2state 1) ∧
    ((c2state.delete 1).2 = false ∧
    (c2state.delete 1).1.cell false = c2state.cell false ∧
    (c2state.delete 1).1.oplog = c2state.oplog ++ [entry.delete 1] ∧
    (c2state.delete 1).1.replicationWriteLag = c2state.replicationWriteLag + 1) :=
  ⟨⟨by decide, Or.inl (by decide)⟩,
    c10_delete_absent_effects c2state 1 false (by decide) (Or.inl (by decide))⟩
